import Mathlib

/-!
Verification of src-cli: configuration loading and subcommand dispatch.

A shallow embedding of

* `readConfig` (cmd/src/main.go),
* `command.matches` and `commander.run` (cmd/src/cmd.go),
* the method set of the `ExecUI` interface (internal/batches/ui/exec_ui.go).

Calls into the Go standard library (`user.Current`, `filepath.Join`,
`os.ExpandEnv`, `ioutil.ReadFile`, `json.Unmarshal`, `os.Getenv`,
`flag.FlagSet.Parse`) are fields of the input structures: the functions of
this repository are translated statement by statement around them. The
package internal/cmderrors is not among the sources: the error kinds that
cmd.go tells apart are modelled. A handler is a function from the
configuration and its arguments to the error it returns; what a handler does
besides returning is not part of a run. The pointer `flagSet` of a command is
its address together with the flag set it points to, so that two commands can
share one flag set; the flag set handed to `run` is an object of its own
(main.go line 48 hands it `flag.CommandLine`).
-/

namespace SrcCli

/-! ## cmd/src/main.go -/

/-- The config format: `type config struct` of main.go. -/
structure config where
  Endpoint : String
  AccessToken : String
deriving DecidableEq, Repr

/-- What `ioutil.ReadFile` gives back: the bytes, an error for which
`os.IsNotExist` holds, or any other error. -/
inductive ReadFileResult where
  | data (bytes : String)
  | notExist (msg : String)
  | otherErr (msg : String)
deriving DecidableEq, Repr

/-- The error values `readConfig` returns, by the statement that returns them. -/
inductive ConfigError where
  /-- main.go line 66: the error of `user.Current()`. -/
  | userCurrent (msg : String)
  /-- main.go line 72: the error of `ioutil.ReadFile`. -/
  | readFile (msg : String)
  /-- main.go line 77: the error of `json.Unmarshal`. -/
  | unmarshal (msg : String)
  /-- main.go line 93: `fmt.Errorf` with `cfg.Endpoint` and `cfgPath`. -/
  | noAccessToken (endpoint : String) (cfgPath : String)
deriving DecidableEq, Repr

deriving instance DecidableEq for Except

/-- Everything `readConfig` reads from outside: the two flag variables of
main.go lines 35-38 as they stand when it is called, the process environment
and the standard-library calls it makes. -/
structure World where
  /-- The value of `*configPath` (flag `-config`). -/
  configPath : String
  /-- The value of `*endpoint` (flag `-endpoint`). -/
  endpoint : String
  /-- The function `os.Getenv`: the empty string for an unset variable. -/
  getenv : String → String
  /-- The call `user.Current()`: the home directory, or an error. -/
  userCurrent : Except String String
  /-- The function `filepath.Join` on two elements. -/
  filepathJoin : String → String → String
  /-- The function `os.ExpandEnv`. -/
  expandEnv : String → String
  /-- The function `ioutil.ReadFile`. -/
  readFile : String → ReadFileResult
  /-- The call `json.Unmarshal(data, &cfg)` on a zero `cfg`: the decoded
  config (absent fields stay empty), or an error. -/
  jsonUnmarshal : String → Except String config

/-- Lines 61-69 of main.go: the path of the config file, `*configPath` when the
user gave one and `$HOME/src-config.json` otherwise. -/
def cfgPathOf (w : World) : Except ConfigError String :=
  if w.configPath ≠ "" then .ok w.configPath
  else
    match w.userCurrent with
    | .error e => .error (.userCurrent e)
    | .ok homeDir => .ok (w.filepathJoin homeDir "src-config.json")

/-- Lines 70-79 of main.go: read and decode the file at `cfgPath`. A file that
does not exist is an error only when the user specified the path; otherwise
`cfg` stays the zero value. -/
def loadFile (w : World) (cfgPath : String) : Except ConfigError config :=
  match w.readFile (w.expandEnv cfgPath) with
  | .data bytes =>
    match w.jsonUnmarshal bytes with
    | .error e => .error (.unmarshal e)
    | .ok cfg => .ok cfg
  | .notExist msg =>
    if w.configPath ≠ "" then .error (.readFile msg) else .ok ⟨"", ""⟩
  | .otherErr msg => .error (.readFile msg)

/-- Lines 81-90 of main.go, "Apply config overrides": a non-empty
`SRC_ACCESS_TOKEN` replaces the token, a non-empty `-endpoint` flag replaces
the endpoint, and an endpoint still empty becomes the default. -/
def applyOverrides (w : World) (cfg : config) : config :=
  let cfg1 : config :=
    if w.getenv "SRC_ACCESS_TOKEN" ≠ "" then
      { cfg with AccessToken := w.getenv "SRC_ACCESS_TOKEN" } else cfg
  let cfg2 : config :=
    if w.endpoint ≠ "" then { cfg1 with Endpoint := w.endpoint } else cfg1
  if cfg2.Endpoint = "" then { cfg2 with Endpoint := "https://sourcegraph.com" } else cfg2

/-- The function `readConfig` of main.go (lines 60-106). `.ok cfg` is the
return `&cfg, nil`; `.error e` is the return `nil, e`. -/
def readConfig (w : World) : Except ConfigError config :=
  match cfgPathOf w with
  | .error e => .error e
  | .ok cfgPath =>
    match loadFile w cfgPath with
    | .error e => .error e
    | .ok cfg0 =>
      let cfg := applyOverrides w cfg0
      if cfg.AccessToken = "" then .error (.noAccessToken cfg.Endpoint cfgPath)
      else .ok cfg

/-- Remove one trailing `"/"`, as `strings.TrimSuffix(s, "/")` does. It is used
only to state properties: `readConfig` of main.go does not call it. -/
def trimSlash (s : String) : String :=
  match s.data.reverse with
  | '/' :: rest => String.mk rest.reverse
  | _ => s

/-! ### Concrete worlds, after the table of `TestReadConfig` -/

/-- The path the test worlds take for a config file given with `-config`. -/
def testConfigFile : String := "/tmp/config.json"

/-- The text `json.Marshal` writes for a config, as `makeTempConfig` of
`TestReadConfig` stores it in the file (field values without characters that
need escaping). -/
def marshalConfig (c : config) : String :=
  "\x7b\"endpoint\":\"" ++ c.Endpoint ++ "\",\"accessToken\":\"" ++ c.AccessToken ++ "\"\x7d"

/-- A world in the shape `TestReadConfig` builds: `file` is the content of the
config file passed with `-config` (none: no `-config`, and no file in the home
directory), `envToken` and `envEndpoint` are `SRC_ACCESS_TOKEN` and
`SRC_ENDPOINT`, `flagEndpoint` is `-endpoint`. The file holds the JSON text of
`file`, which `jsonUnmarshal` decodes back to `file`. -/
def testWorld (file : Option config) (envToken envEndpoint flagEndpoint : String) : World where
  configPath := if file.isSome then testConfigFile else ""
  endpoint := flagEndpoint
  getenv := fun k =>
    if k = "SRC_ACCESS_TOKEN" then envToken
    else if k = "SRC_ENDPOINT" then envEndpoint
    else ""
  userCurrent := .ok "/home/u"
  filepathJoin := fun a b => a ++ "/" ++ b
  expandEnv := fun p => p
  readFile := fun p =>
    match file with
    | some c =>
      if p = testConfigFile then .data (marshalConfig c) else .notExist "no such file"
    | none => .notExist "no such file"
  jsonUnmarshal := fun bytes =>
    match file with
    | some c => if bytes = marshalConfig c then .ok c else .error "invalid character"
    | none => .error "unexpected end of JSON input"

/-- The text of `err.Error()` for an error of `readConfig`; the message of main.go
lines 93-103 is built from `cfg.Endpoint` and `cfgPath`. -/
def ConfigError.Error : ConfigError → String
  | .userCurrent msg => msg
  | .readFile msg => msg
  | .unmarshal msg => msg
  | .noAccessToken endpoint cfgPath =>
    "error: you must specify an access token to use for " ++ endpoint ++
    "\n\nYou can do so via the environment:\n\n\tSRC_ACCESS_TOKEN=\"secret\" src ...\n\n" ++
    "or via the configuration file (" ++ cfgPath ++
    "):\n\n\t\x7b\"accessToken\": \"secret\"\x7d\n\n"

/-! ## cmd/src/cmd.go -/

/-- Modelled from the spec: the type `cmderrors.ExitCodeError` (package
internal/cmderrors is not among the sources), "an error explicitly carrying its
own exit code": an optional wrapped error and the code. -/
structure ExitCodeError where
  error : Option String
  exitCode : Int
deriving DecidableEq, Repr

/-- Modelled from the spec: the method `HasError` of `cmderrors.ExitCodeError`
(not among the sources), which cmd.go line 116 calls: whether an error is
wrapped. -/
def ExitCodeError.HasError (e : ExitCodeError) : Bool := e.error.isSome

/-- Modelled from the spec: the method `Code` of `cmderrors.ExitCodeError` (not
among the sources), which cmd.go line 119 calls: the code the error carries. -/
def ExitCodeError.Code (e : ExitCodeError) : Int := e.exitCode

/-- Modelled from the spec: the non-nil `error` values a handler returns, by the
dynamic type the two type assertions of cmd.go lines 108 and 115 tell apart
(package internal/cmderrors is not among the sources): a
`*cmderrors.UsageError`, a `*cmderrors.ExitCodeError`, or any other error. -/
inductive GoError where
  | usage (msg : String)
  | exitCode (e : ExitCodeError)
  | other (msg : String)
deriving DecidableEq, Repr

/-- The text of `err.Error()` for a handler error. -/
def GoError.Error : GoError → String
  | .usage msg => msg
  | .exitCode e => e.error.getD ""
  | .other msg => msg

/-- A function stored in `flagSet.Usage`. -/
inductive UsageFn where
  /-- The closure of cmd.go lines 48-50: prints `usageText`. -/
  | top (usageText : String)
  /-- A command's own `usageFunc` (cmd.go line 66), named by a label. -/
  | custom (label : String)
  /-- The closure of cmd.go lines 69-72: prints "Usage of 'cmdName name':" and
  the flag defaults. -/
  | default (cmdName : String) (name : String)
deriving DecidableEq, Repr

/-- What `flag.FlagSet.Parse` does on an argument list: returns nil leaving
positional arguments `rest`; returns an error (handling `ContinueOnError`);
exits the process (`ExitOnError`); or panics (`PanicOnError`). In the last three
cases the flag package has called the flag set's `Usage` first. -/
inductive ParseOutcome where
  | ok (rest : List String)
  | err (msg : String) (rest : List String)
  | exit (code : Int)
  | panics (msg : String)
deriving DecidableEq, Repr

/-- The part of a `*flag.FlagSet` that cmd.go reads. The field `Usage` is not
an input: `run` assigns it (line 48, lines 63-73) before every call of it, and
the values the loop of lines 63-73 assigns are kept by address (`UsageStore`). -/
structure FlagSet where
  /-- The result of `Name()`. -/
  name : String
  /-- The result of `Parsed()`. -/
  parsed : Bool
  /-- The result of `Args()` when already parsed. -/
  args : List String
  /-- The behaviour of `Parse`. -/
  parse : List String → ParseOutcome

/-- The struct `command` of cmd.go lines 13-27. The field `flagSet` is a
pointer: `flagSetAddr` is the address it holds and `flagSet` the flag set at
that address, and commands with the same address share one flag set. The
handler reads the global `cfg` that `run` sets before calling it, so it takes
the config as an argument; it gives back nil (none) or a non-nil error. -/
structure command where
  flagSet : FlagSet
  flagSetAddr : Nat
  aliases : List String
  handler : config → List String → Option GoError
  usageFunc : Option String

/-- The method `command.matches` of cmd.go lines 29-40. -/
def command.matches (c : command) (name : String) : Bool :=
  if name = c.flagSet.name then true
  else c.aliases.any (fun a => decide (name = a))

/-- The type `commander` of cmd.go line 43. -/
abbrev commander := List command

/-- The two standard streams. -/
inductive Stream where
  | stdout
  | stderr
deriving DecidableEq, Repr

/-- The flag sets `run` touches: its `flagSet` argument, the flag set of the
command at an index of the commander, and `flag.CommandLine`. -/
inductive FlagSetRef where
  | top
  | cmd (idx : Nat)
  | commandLine
deriving DecidableEq, Repr

/-- What `run` does that can be observed, in order. -/
inductive Event where
  /-- A call of `Usage` of the given flag set, with the function stored there. -/
  | usage (fs : FlagSetRef) (fn : Option UsageFn)
  /-- A call of `SetOutput`. -/
  | setOutput (fs : FlagSetRef) (stream : Stream)
  /-- The call of `readConfig` at cmd.go line 84. -/
  | readConfig
  /-- The call `cmd.handler(args)` of cmd.go line 107 for the command at `idx`,
  and what it returned. -/
  | handler (idx : Nat) (args : List String) (result : Option GoError)
  /-- A call of `log.Print`, `log.Println` or `log.Fatal`, with the text of
  its operands. -/
  | log (text : String)
  /-- A call of `log.Printf` or `log.Fatalf`, with the format and its operands. -/
  | logf (format : String) (operands : List String)
  /-- A call of `fmt.Printf`, with the format and its operands. -/
  | printf (format : String) (operands : List String)
deriving DecidableEq, Repr

/-- How the process ends: a call `os.Exit(code)`, with the argument handed to
it (`log.Fatal` and `log.Fatalf` call `os.Exit(1)`), or a panic. -/
inductive Termination where
  | exit (code : Int)
  | panic (msg : String)
deriving DecidableEq, Repr

/-- The exit status of the process, as its parent reads it: the low 8 bits of
the argument of `os.Exit` (256 gives 0, -1 gives 255), and 2 for a panic. -/
def Termination.status : Termination → Int
  | .exit code => code % 256
  | .panic _ => 2

/-- A run of the process: the events in order and how it ended. Every path
through `commander.run` ends the process. -/
structure RunResult where
  events : List Event
  term : Termination
deriving DecidableEq, Repr

/-- The run `r` preceded by the events `pre`. -/
def RunResult.after (pre : List Event) (r : RunResult) : RunResult :=
  ⟨pre ++ r.events, r.term⟩

/-- The function the body of the loop of cmd.go lines 63-73 assigns to
`cmd.flagSet.Usage`: the command's `usageFunc` when that is not nil (line 66),
the default printer otherwise (lines 69-72). -/
def usageFuncOf (cmdName : String) (cmd : command) : UsageFn :=
  match cmd.usageFunc with
  | some f => .custom f
  | none => .default cmdName cmd.flagSet.name

/-- The fields `Usage` of the commands' flag sets, by address; none is nil. -/
abbrev UsageStore := Nat → Option UsageFn

/-- Lines 62-73 of cmd.go: for each command in order, the assignment
`cmd.flagSet.Usage = ...` through the pointer `cmd.flagSet`. A later command
that shares the flag set overwrites the assignment of an earlier one. -/
def configureUsage (cmdName : String) : List command → UsageStore → UsageStore
  | [], store => store
  | cmd :: cmds, store =>
    configureUsage cmdName cmds
      (fun addr => if addr = cmd.flagSetAddr then some (usageFuncOf cmdName cmd)
        else store addr)

/-- Lines 106-123 of cmd.go: call the handler and end the process by what it
returns. `usage` is the value of `cmd.flagSet.Usage`. -/
def execute (usage : Option UsageFn) (cfg : config) (idx : Nat) (cmd : command)
    (rest : List String) : RunResult :=
  match cmd.handler cfg rest with
  | some (.usage msg) =>
    ⟨[.handler idx rest (some (.usage msg)),
      .logf "error: %s\n\n" [msg],
      .setOutput (.cmd idx) .stderr,
      .setOutput .commandLine .stderr,
      .usage (.cmd idx) usage], .exit 2⟩
  | some (.exitCode e) =>
    if e.HasError then
      ⟨[.handler idx rest (some (.exitCode e)), .log (GoError.Error (.exitCode e))],
        .exit e.Code⟩
    else ⟨[.handler idx rest (some (.exitCode e))], .exit e.Code⟩
  | some (.other msg) => ⟨[.handler idx rest (some (.other msg)), .log msg], .exit 1⟩
  | none => ⟨[.handler idx rest none], .exit 0⟩

/-- Lines 82-123 of cmd.go, the body of the dispatch loop for a command that
matches: read the configuration, print help when `--help` is among the
arguments of `run`, parse the subcommand flags, execute. `posArgs` is
`flagSet.Args()` and `usage` the value of `cmd.flagSet.Usage`. -/
def runCommand (w : World) (usage : Option UsageFn) (args posArgs : List String)
    (idx : Nat) (cmd : command) : RunResult :=
  match readConfig w with
  | .error err => ⟨[.readConfig, .log ("reading config: " ++ err.Error)], .exit 1⟩
  | .ok cfg =>
    if args.any (fun s => decide (s = "--help")) then
      ⟨[.readConfig, .setOutput (.cmd idx) .stdout, .setOutput .commandLine .stdout,
        .usage (.cmd idx) usage], .exit 0⟩
    else
      match cmd.flagSet.parse (posArgs.drop 1) with
      | .ok _ => (execute usage cfg idx cmd (posArgs.drop 1)).after [.readConfig]
      | .err msg _ =>
        ⟨[.readConfig, .usage (.cmd idx) usage,
          .printf "Error parsing subcommand flags: %s\n" [msg]],
          .panic ("all registered commands should use flag.ExitOnError: error: " ++ msg)⟩
      | .exit code => ⟨[.readConfig, .usage (.cmd idx) usage], .exit code⟩
      | .panics msg => ⟨[.readConfig, .usage (.cmd idx) usage], .panic msg⟩

/-- Lines 125-126 of cmd.go: no command matched; `log.Fatalf` writes and calls
`os.Exit(1)`. -/
def unknownSubcommand (cmdName name : String) : RunResult :=
  ⟨[.logf "%s: unknown subcommand %q" [cmdName, name],
    .logf "Run \x27%s help\x27 for usage." [cmdName]], .exit 1⟩

/-- Lines 77-126 of cmd.go: the loop over the commands from index `idx` on, and
the two `log` calls after it when no command matches. `store` holds the fields
`Usage` as the loop of lines 63-73 left them. -/
def dispatch (w : World) (cmdName name : String) (args posArgs : List String)
    (store : UsageStore) : List command → Nat → RunResult
  | [], _ => unknownSubcommand cmdName name
  | cmd :: cmds, idx =>
    if cmd.matches name then runCommand w (store cmd.flagSetAddr) args posArgs idx cmd
    else dispatch w cmdName name args posArgs store cmds (idx + 1)

/-- Lines 55-126 of cmd.go: what `run` does once the flags are parsed and
`flagSet.Args()` is `posArgs`. The loop of lines 63-73 assigns the field `Usage`
of every command's flag set, so what the fields held before it is not read. -/
def afterParse (w : World) (c : commander) (cmdName usageText : String)
    (args posArgs : List String) : RunResult :=
  if posArgs.head? = some "help" ∨ posArgs.length = 0 then
    ⟨[.setOutput .top .stdout, .usage .top (some (.top usageText))], .exit 0⟩
  else
    dispatch w cmdName (posArgs.headD "") args posArgs
      (configureUsage cmdName c (fun _ => none)) c 0

/-- Lines 51-53 of cmd.go: `flagSet.Parse(args)` unless already parsed. -/
def topParse (flagSet : FlagSet) (args : List String) : ParseOutcome :=
  if flagSet.parsed then .ok flagSet.args else flagSet.parse args

/-- The method `commander.run` of cmd.go lines 46-127. The error of the
top-level `Parse` is dropped (line 52), its positional arguments are kept. The
flag set `flagSet` is an object of its own, not the flag set of a command, so
that `flagSet.Args()` at line 107 is what it was at line 100. -/
def commander.run (c : commander) (w : World) (flagSet : FlagSet)
    (cmdName usageText : String) (args : List String) : RunResult :=
  match topParse flagSet args with
  | .ok posArgs => afterParse w c cmdName usageText args posArgs
  | .err _ posArgs =>
    (afterParse w c cmdName usageText args posArgs).after
      [.usage .top (some (.top usageText))]
  | .exit code => ⟨[.usage .top (some (.top usageText))], .exit code⟩
  | .panics msg => ⟨[.usage .top (some (.top usageText))], .panic msg⟩

/-- The positional arguments `flagSet.Args()` that `run` dispatches on, when the
top-level parse comes back. -/
def posArgsOf (flagSet : FlagSet) (args : List String) : Option (List String) :=
  match topParse flagSet args with
  | .ok posArgs => some posArgs
  | .err _ posArgs => some posArgs
  | .exit _ => none
  | .panics _ => none

/-- The events of the top-level parse: the flag package calls `flagSet.Usage`
when `Parse` fails. -/
def parseEvents (flagSet : FlagSet) (usageText : String) (args : List String) : List Event :=
  match topParse flagSet args with
  | .ok _ => []
  | _ => [.usage .top (some (.top usageText))]

/-- The index of the first command that matches `name`, in registration order;
the length of the list when none does. -/
def matchIdx (name : String) (c : commander) : Nat :=
  c.findIdx (fun cmd => cmd.matches name)

/-- The index of the first command that matches `name`, if one does. -/
def firstMatch (name : String) (c : commander) : Option Nat :=
  if matchIdx name c < c.length then some (matchIdx name c) else none

/-- The last command in registration order whose flag set is at `addr`: the one
whose assignment at lines 63-73 is left in that flag set's `Usage`. -/
def usageOwner (addr : Nat) : List command → Option command
  | [] => none
  | cmd :: cmds =>
    match usageOwner addr cmds with
    | some owner => some owner
    | none => if cmd.flagSetAddr = addr then some cmd else none

/-- A flag set whose `Parse` takes every argument as positional. -/
def plainFlagSet (name : String) : FlagSet where
  name := name
  parsed := false
  args := []
  parse := fun args => .ok args

/-- Two commands as the usage text of main.go lists them, each with a flag set
of its own: `api`, whose handler returns `errApi`, and `repos` with the alias
`repo` and a usage function of its own, whose handler returns `errRepos`. -/
def twoCommands (errApi errRepos : Option GoError) : commander :=
  [ { flagSet := plainFlagSet "api", flagSetAddr := 1, aliases := [],
      handler := fun _ _ => errApi, usageFunc := none },
    { flagSet := plainFlagSet "repos", flagSetAddr := 2, aliases := ["repo"],
      handler := fun _ _ => errRepos, usageFunc := some "reposUsage" } ]

/-- The two commands with the handler of `api` returning `err` and that of
`repos` returning nil. -/
def sampleCommands (err : Option GoError) : commander := twoCommands err none

/-- Two commands that share one flag set, named `repos`, at address 1: the
first has no usage function of its own and its handler returns `err`; the
second has the alias `repo` and the usage function `repoUsage`. -/
def sharedCommands (err : Option GoError) : commander :=
  [ { flagSet := plainFlagSet "repos", flagSetAddr := 1, aliases := [],
      handler := fun _ _ => err, usageFunc := none },
    { flagSet := plainFlagSet "repos", flagSetAddr := 1, aliases := ["repo"],
      handler := fun _ _ => none, usageFunc := some "repoUsage" } ]

/-- A world in which `readConfig` succeeds: `SRC_ACCESS_TOKEN` is set. -/
def okWorld : World := testWorld none "abc" "" ""

/-- The run of the sample commands on `args`, with `src` as the command name. -/
def sampleRun (err : Option GoError) (w : World) (args : List String) : RunResult :=
  (sampleCommands err).run w (plainFlagSet "src") "src" "usage of src" args

/-! ## internal/batches/ui/exec_ui.go -/

/-- The signature of a method of a Go interface: its name, the types of its
parameters and the types of its results. -/
structure MethodSig where
  name : String
  params : List String
  results : List String
deriving DecidableEq, Repr

/-- The method set of the interface `ExecUI` of exec_ui.go lines 10-56, in the
order of the source. -/
def ExecUI : List MethodSig :=
  [ ⟨"ParsingBatchSpec", [], []⟩,
    ⟨"ParsingBatchSpecSuccess", [], []⟩,
    ⟨"ParsingBatchSpecFailure", ["error"], []⟩,
    ⟨"ResolvingNamespace", [], []⟩,
    ⟨"ResolvingNamespaceSuccess", ["string"], []⟩,
    ⟨"PreparingContainerImages", [], []⟩,
    ⟨"PreparingContainerImagesProgress", ["int", "int"], []⟩,
    ⟨"PreparingContainerImagesSuccess", [], []⟩,
    ⟨"DeterminingWorkspaceCreatorType", [], []⟩,
    ⟨"DeterminingWorkspaceCreatorTypeSuccess", ["workspace.CreatorType"], []⟩,
    ⟨"ResolvingRepositories", [], []⟩,
    ⟨"ResolvingRepositoriesDone",
      ["[]*graphql.Repository", "batches.UnsupportedRepoSet", "batches.IgnoredRepoSet"], []⟩,
    ⟨"DeterminingWorkspaces", [], []⟩,
    ⟨"DeterminingWorkspacesSuccess", ["int"], []⟩,
    ⟨"CheckingCache", [], []⟩,
    ⟨"CheckingCacheSuccess", ["int", "int"], []⟩,
    ⟨"ExecutingTasks", ["bool", "int"], ["executor.TaskExecutionUI"]⟩,
    ⟨"ExecutingTasksSkippingErrors", ["error"], []⟩,
    ⟨"LogFilesKept", ["[]string"], []⟩,
    ⟨"NoChangesetSpecs", [], []⟩,
    ⟨"UploadingChangesetSpecs", ["int"], []⟩,
    ⟨"UploadingChangesetSpecsProgress", ["int", "int"], []⟩,
    ⟨"UploadingChangesetSpecsSuccess", ["[]graphql.ChangesetSpecID"], []⟩,
    ⟨"CreatingBatchSpec", [], []⟩,
    ⟨"CreatingBatchSpecSuccess", [], []⟩,
    ⟨"CreatingBatchSpecError", ["error"], ["error"]⟩,
    ⟨"PreviewBatchSpec", ["string"], []⟩,
    ⟨"ApplyingBatchSpec", [], []⟩,
    ⟨"ApplyingBatchSpecSuccess", ["string"], []⟩,
    ⟨"ExecutionError", ["error"], []⟩,
    ⟨"WriteCache", ["string", "[]byte"], []⟩ ]

/-- Whether a method gives a value back to its caller. -/
def MethodSig.returnsValue (m : MethodSig) : Bool := !m.results.isEmpty

/-! ## Theorems: readConfig -/

/-- A successful `readConfig` returns the config of lines 81-90 applied to some
loaded config, and its token is not empty. -/
theorem readConfig_ok_iff (w : World) (cfg : config) :
    readConfig w = .ok cfg ↔
      ∃ cfgPath cfg0, cfgPathOf w = .ok cfgPath ∧ loadFile w cfgPath = .ok cfg0 ∧
        cfg = applyOverrides w cfg0 ∧ cfg.AccessToken ≠ "" := by
  unfold readConfig
  constructor
  · intro h
    split at h
    · exact absurd h (by simp)
    · rename_i cfgPath hp
      split at h
      · exact absurd h (by simp)
      · rename_i cfg0 hl
        simp only at h
        split at h
        · exact absurd h (by simp)
        · rename_i hne
          have hc : applyOverrides w cfg0 = cfg := by
            injection h
          exact ⟨cfgPath, cfg0, hp, hl, hc.symm, hc ▸ hne⟩
  · rintro ⟨cfgPath, cfg0, hp, hl, hc, hne⟩
    rw [hp]
    simp only [hl]
    rw [← hc]
    simp [hne]

/-- A successful `readConfig` never returns an empty token: lines 92-104 of
main.go return an error instead. -/
theorem readConfig_token_nonempty (w : World) (cfg : config)
    (hok : readConfig w = .ok cfg) : cfg.AccessToken ≠ "" := by
  obtain ⟨_, _, _, _, _, hne⟩ := (readConfig_ok_iff w cfg).mp hok
  exact hne

/-- With a non-empty `-endpoint` flag the overrides set the endpoint to it. -/
theorem applyOverrides_endpoint_flag (w : World) (cfg0 : config) (h : w.endpoint ≠ "") :
    (applyOverrides w cfg0).Endpoint = w.endpoint := by
  unfold applyOverrides
  simp only [h, ne_eq, not_false_eq_true, if_true]
  split <;> simp_all

/-- With a non-empty `SRC_ACCESS_TOKEN` the overrides set the token to it. -/
theorem applyOverrides_env_token (w : World) (cfg0 : config)
    (h : w.getenv "SRC_ACCESS_TOKEN" ≠ "") :
    (applyOverrides w cfg0).AccessToken = w.getenv "SRC_ACCESS_TOKEN" := by
  unfold applyOverrides
  simp only [h, ne_eq, not_false_eq_true, if_true]
  repeat (first | rfl | split)

/-- C3: whenever `readConfig` succeeds with a non-empty `-endpoint` flag, the
returned Endpoint is the flag's value, hence equal to it when both are compared
without one trailing "/", for every config file content and every environment
(every value of `SRC_ENDPOINT` included). -/
theorem C3_endpoint_flag_overrides (w : World) (cfg : config)
    (hflag : w.endpoint ≠ "") (hok : readConfig w = .ok cfg) :
    cfg.Endpoint = w.endpoint ∧ trimSlash cfg.Endpoint = trimSlash w.endpoint := by
  obtain ⟨_, cfg0, _, _, hc, _⟩ := (readConfig_ok_iff w cfg).mp hok
  have h : cfg.Endpoint = w.endpoint := by
    rw [hc]; exact applyOverrides_endpoint_flag w cfg0 hflag
  exact ⟨h, by rw [h]⟩

/-- C3 at a concrete input: a config file with endpoint "https://example.com/",
`SRC_ENDPOINT` "https://other.com" and the flag "https://override.com/". -/
theorem C3_endpoint_flag_overrides_witness :
    (testWorld (some ⟨"https://example.com/", "deadbeef"⟩) "abc" "https://other.com"
        "https://override.com/").endpoint ≠ "" ∧
    readConfig (testWorld (some ⟨"https://example.com/", "deadbeef"⟩) "abc"
        "https://other.com" "https://override.com/") =
      .ok ⟨"https://override.com/", "abc"⟩ ∧
    ((⟨"https://override.com/", "abc"⟩ : config).Endpoint =
        (testWorld (some ⟨"https://example.com/", "deadbeef"⟩) "abc" "https://other.com"
          "https://override.com/").endpoint ∧
      trimSlash (⟨"https://override.com/", "abc"⟩ : config).Endpoint =
        trimSlash (testWorld (some ⟨"https://example.com/", "deadbeef"⟩) "abc"
          "https://other.com" "https://override.com/").endpoint) :=
  ⟨by decide, by decide,
    C3_endpoint_flag_overrides
      (testWorld (some ⟨"https://example.com/", "deadbeef"⟩) "abc" "https://other.com"
        "https://override.com/")
      ⟨"https://override.com/", "abc"⟩ (by decide) (by decide)⟩

/-- C4: whenever `readConfig` succeeds with a non-empty `SRC_ACCESS_TOKEN`, the
returned AccessToken is the value of `SRC_ACCESS_TOKEN`, whatever the config
file holds. -/
theorem C4_env_token_overrides (w : World) (cfg : config)
    (henv : w.getenv "SRC_ACCESS_TOKEN" ≠ "") (hok : readConfig w = .ok cfg) :
    cfg.AccessToken = w.getenv "SRC_ACCESS_TOKEN" := by
  obtain ⟨_, cfg0, _, _, hc, _⟩ := (readConfig_ok_iff w cfg).mp hok
  rw [hc]
  exact applyOverrides_env_token w cfg0 henv

/-- C4 at a concrete input: the config file holds the token "deadbeef" and
`SRC_ACCESS_TOKEN` is "abc". -/
theorem C4_env_token_overrides_witness :
    (testWorld (some ⟨"https://example.com", "deadbeef"⟩) "abc" "" "").getenv
        "SRC_ACCESS_TOKEN" ≠ "" ∧
    readConfig (testWorld (some ⟨"https://example.com", "deadbeef"⟩) "abc" "" "") =
      .ok ⟨"https://example.com", "abc"⟩ ∧
    (⟨"https://example.com", "abc"⟩ : config).AccessToken =
      (testWorld (some ⟨"https://example.com", "deadbeef"⟩) "abc" "" "").getenv
        "SRC_ACCESS_TOKEN" :=
  ⟨by decide, by decide,
    C4_env_token_overrides
      (testWorld (some ⟨"https://example.com", "deadbeef"⟩) "abc" "" "")
      ⟨"https://example.com", "abc"⟩ (by decide) (by decide)⟩

/-- C5: with no config file, an empty environment and no flags (the case
"defaults" of `TestReadConfig`), `readConfig` does not return the config with
the default endpoint and an empty token: it returns the error of main.go lines
92-104. -/
theorem C5_defaults_fail :
    readConfig (testWorld none "" "" "") =
        .error (.noAccessToken "https://sourcegraph.com" "/home/u/src-config.json") ∧
      readConfig (testWorld none "" "" "") ≠ .ok ⟨"https://sourcegraph.com", ""⟩ := by
  decide

/-- C6: with the config file holding the endpoint "https://example.com/" and no
overrides (the case "config file, no overrides, trim slash" of
`TestReadConfig`), `readConfig` returns the endpoint with its trailing slash,
not the trimmed "https://example.com". -/
theorem C6_slash_kept :
    readConfig (testWorld (some ⟨"https://example.com/", "deadbeef"⟩) "" "" "") =
        .ok ⟨"https://example.com/", "deadbeef"⟩ ∧
      trimSlash "https://example.com/" = "https://example.com" ∧
      readConfig (testWorld (some ⟨"https://example.com/", "deadbeef"⟩) "" "" "") ≠
        .ok ⟨"https://example.com", "deadbeef"⟩ := by
  decide

/-- C7: with a config file and only `SRC_ACCESS_TOKEN` set, or only
`SRC_ENDPOINT` set (the two cases "override only" of `TestReadConfig`),
`readConfig` returns a config and no error. -/
theorem C7_no_merge_error :
    readConfig (testWorld (some ⟨"https://example.com/", "deadbeef"⟩) "abc" "" "") =
        .ok ⟨"https://example.com/", "abc"⟩ ∧
      readConfig (testWorld (some ⟨"https://example.com/", "deadbeef"⟩) ""
          "https://exmaple2.com" "") =
        .ok ⟨"https://example.com/", "deadbeef"⟩ := by
  decide

/-- C8: with no config file, `SRC_ENDPOINT` "https://example.com",
`SRC_ACCESS_TOKEN` "abc" and no flag (the case "no config file, both variables"
of `TestReadConfig`), `readConfig` returns the default endpoint, not the value
of `SRC_ENDPOINT`. -/
theorem C8_env_endpoint_ignored :
    (testWorld none "abc" "https://example.com" "").getenv "SRC_ENDPOINT" =
        "https://example.com" ∧
      readConfig (testWorld none "abc" "https://example.com" "") =
        .ok ⟨"https://sourcegraph.com", "abc"⟩ := by
  decide

/-! ## Theorems: commander.run -/

/-- The field `Usage` the loop of lines 63-73 leaves at an address: the function
of the last command whose flag set is there, or what was there before. -/
theorem configureUsage_eq (cmdName : String) (cmds : List command) (store : UsageStore)
    (addr : Nat) :
    configureUsage cmdName cmds store addr =
      match usageOwner addr cmds with
      | some owner => some (usageFuncOf cmdName owner)
      | none => store addr := by
  induction cmds generalizing store with
  | nil => rfl
  | cons cmd cmds ih =>
    unfold configureUsage usageOwner
    rw [ih]
    cases usageOwner addr cmds with
    | some owner => rfl
    | none =>
      by_cases ha : addr = cmd.flagSetAddr
      · simp [ha]
      · have ha2 : ¬ cmd.flagSetAddr = addr := fun h => ha h.symm
        simp [ha, ha2]

/-- The owner of an address is a command of the list at that address, and no
command after it is at that address. -/
theorem usageOwner_spec (addr : Nat) (cmds : List command) (owner : command)
    (h : usageOwner addr cmds = some owner) :
    ∃ j : Nat, cmds[j]? = some owner ∧ owner.flagSetAddr = addr ∧
      ∀ (k : Nat) (other : command), j < k → cmds[k]? = some other →
        other.flagSetAddr ≠ addr := by
  induction cmds with
  | nil => simp [usageOwner] at h
  | cons cmd cmds ih =>
    unfold usageOwner at h
    cases hrec : usageOwner addr cmds with
    | some o =>
      rw [hrec] at h
      simp only [Option.some.injEq] at h
      subst h
      obtain ⟨j, hj, ha, hlater⟩ := ih hrec
      refine ⟨j + 1, by simpa using hj, ha, ?_⟩
      intro k other hk hother
      cases k with
      | zero => omega
      | succ k =>
        exact hlater k other (by omega) (by simpa using hother)
    | none =>
      rw [hrec] at h
      simp only at h
      split at h
      · rename_i ha
        simp only [Option.some.injEq] at h
        subst h
        refine ⟨0, by simp, ha, ?_⟩
        intro k other hk hother hne
        cases k with
        | zero => omega
        | succ k =>
          have hmem : other ∈ cmds := List.getElem?_mem (by simpa using hother)
          have : ∀ c ∈ cmds, usageOwner addr cmds = none → c.flagSetAddr ≠ addr := by
            intro c hc
            clear ih hother hmem hrec
            induction cmds with
            | nil => simp at hc
            | cons d ds ihd =>
              intro hnone
              unfold usageOwner at hnone
              cases hd : usageOwner addr ds with
              | some o => rw [hd] at hnone; simp at hnone
              | none =>
                rw [hd] at hnone
                simp only at hnone
                split at hnone
                · simp at hnone
                · rename_i hda
                  rcases List.mem_cons.mp hc with rfl | hc
                  · exact hda
                  · exact ihd hc hd
          exact this other hmem hrec hne
      · exact absurd h (by simp)

/-- A command after which no command shares its flag set is the owner of its
address. -/
theorem usageOwner_of_unshared (cmds : List command) (idx : Nat) (cmd : command)
    (hcmd : cmds[idx]? = some cmd)
    (hlater : ∀ (k : Nat) (other : command), idx < k → cmds[k]? = some other →
      other.flagSetAddr ≠ cmd.flagSetAddr) :
    usageOwner cmd.flagSetAddr cmds = some cmd := by
  induction cmds generalizing idx with
  | nil => simp at hcmd
  | cons d ds ih =>
    unfold usageOwner
    cases idx with
    | zero =>
      simp only [List.getElem?_cons_zero, Option.some.injEq] at hcmd
      subst hcmd
      cases hrec : usageOwner d.flagSetAddr ds with
      | some o =>
        obtain ⟨j, hj, ha, _⟩ := usageOwner_spec _ _ _ hrec
        exact absurd ha (hlater (j + 1) o (by omega) (by simpa using hj))
      | none => simp
    | succ i =>
      have hrec := ih i (by simpa using hcmd)
        (fun k other hk hother => hlater (k + 1) other (by omega) (by simpa using hother))
      rw [hrec]

/-- Every command of the list has an owner of its address. -/
theorem usageOwner_isSome (cmds : List command) (idx : Nat) (cmd : command)
    (hcmd : cmds[idx]? = some cmd) :
    ∃ owner, usageOwner cmd.flagSetAddr cmds = some owner := by
  induction cmds generalizing idx with
  | nil => simp at hcmd
  | cons d ds ih =>
    unfold usageOwner
    cases idx with
    | zero =>
      simp only [List.getElem?_cons_zero, Option.some.injEq] at hcmd
      subst hcmd
      cases usageOwner d.flagSetAddr ds with
      | some o => exact ⟨o, rfl⟩
      | none => exact ⟨d, by simp⟩
    | succ i =>
      obtain ⟨o, ho⟩ := ih i (by simpa using hcmd)
      exact ⟨o, by rw [ho]⟩

/-- The dispatch loop runs the body for the first command that matches, and
reports an unknown subcommand when none does. -/
theorem dispatch_eq (w : World) (cmdName name : String) (args posArgs : List String)
    (store : UsageStore) (cmds : List command) (idx : Nat) :
    dispatch w cmdName name args posArgs store cmds idx =
      match cmds[cmds.findIdx (fun cmd => cmd.matches name)]? with
      | some cmd =>
        runCommand w (store cmd.flagSetAddr) args posArgs
          (idx + cmds.findIdx (fun cmd => cmd.matches name)) cmd
      | none => unknownSubcommand cmdName name := by
  induction cmds generalizing idx with
  | nil => simp [dispatch]
  | cons cmd cmds ih =>
    unfold dispatch
    by_cases hm : cmd.matches name = true
    · simp [hm, List.findIdx_cons]
    · simp only [hm, List.findIdx_cons, Bool.false_eq_true, if_false]
      rw [ih (idx + 1)]
      simp only [Bool.not_eq_true] at hm
      simp only [hm, cond_false, List.getElem?_cons_succ]
      rw [Nat.add_assoc, Nat.add_comm 1]

/-- The body of the loop calls the handler when the configuration is read,
`--help` is not among the arguments and the subcommand flags parse. -/
theorem runCommand_eq_execute (w : World) (usage : Option UsageFn)
    (args posArgs : List String) (idx : Nat)
    (cmd : command) (cfg : config) (r : List String)
    (hcfg : readConfig w = .ok cfg)
    (hhelp : args.any (fun s => decide (s = "--help")) = false)
    (hparse : cmd.flagSet.parse (posArgs.drop 1) = .ok r) :
    runCommand w usage args posArgs idx cmd =
      (execute usage cfg idx cmd (posArgs.drop 1)).after [.readConfig] := by
  unfold runCommand
  rw [hcfg]
  simp only [hhelp, hparse, Bool.false_eq_true, if_false]

/-- Once the top-level parse comes back with a first positional argument other
than "help", `run` is the body of the loop for the first command that matches,
or the report of an unknown subcommand. -/
theorem run_eq_dispatch (cs : commander) (w : World) (flagSet : FlagSet)
    (cmdName usageText : String) (args : List String) (name : String) (rest : List String)
    (hpos : posArgsOf flagSet args = some (name :: rest)) (hname : name ≠ "help") :
    cs.run w flagSet cmdName usageText args =
      (match cs[matchIdx name cs]? with
        | some cmd =>
          runCommand w (configureUsage cmdName cs (fun _ => none) cmd.flagSetAddr) args
            (name :: rest) (matchIdx name cs) cmd
        | none => unknownSubcommand cmdName name).after
        (parseEvents flagSet usageText args) := by
  have key : afterParse w cs cmdName usageText args (name :: rest) =
      (match cs[matchIdx name cs]? with
        | some cmd =>
          runCommand w (configureUsage cmdName cs (fun _ => none) cmd.flagSetAddr) args
            (name :: rest) (matchIdx name cs) cmd
        | none => unknownSubcommand cmdName name) := by
    unfold afterParse
    simp only [List.head?_cons, Option.some.injEq, hname, List.length_cons,
      Nat.add_one_ne_zero, or_self, if_false, List.headD_cons]
    rw [dispatch_eq]
    simp only [Nat.zero_add, matchIdx]
  unfold posArgsOf at hpos
  unfold commander.run parseEvents
  split at hpos
  · rename_i posArgs htp
    simp only [Option.some.injEq] at hpos
    subst hpos
    simp only [htp, key, RunResult.after, List.nil_append]
  · rename_i msg posArgs htp
    simp only [Option.some.injEq] at hpos
    subst hpos
    simp only [htp, key]
  · exact absurd hpos (by simp)
  · exact absurd hpos (by simp)

/-- The events of the top-level parse are calls of the top-level usage function. -/
theorem parseEvents_not_handler (flagSet : FlagSet) (usageText : String) (args : List String) :
    ∀ e ∈ parseEvents flagSet usageText args,
      e = Event.usage .top (some (.top usageText)) := by
  intro e he
  unfold parseEvents at he
  split at he <;> simp_all

/-- When the gates of lines 56-104 are passed, `run` is the call of the handler
of the first command that matches, after the events of parsing and of reading
the configuration. -/
theorem run_eq_execute (cs : commander) (w : World) (flagSet : FlagSet)
    (cmdName usageText : String) (args : List String) (name : String) (rest : List String)
    (cmd : command) (cfg : config) (r : List String)
    (hpos : posArgsOf flagSet args = some (name :: rest)) (hname : name ≠ "help")
    (hcmd : cs[matchIdx name cs]? = some cmd)
    (hcfg : readConfig w = .ok cfg)
    (hhelp : args.any (fun s => decide (s = "--help")) = false)
    (hparse : cmd.flagSet.parse rest = .ok r) :
    cs.run w flagSet cmdName usageText args =
      (execute (configureUsage cmdName cs (fun _ => none) cmd.flagSetAddr) cfg
        (matchIdx name cs) cmd rest).after
        (parseEvents flagSet usageText args ++ [.readConfig]) := by
  rw [run_eq_dispatch cs w flagSet cmdName usageText args name rest hpos hname, hcmd]
  simp only
  rw [runCommand_eq_execute w _ args (name :: rest) (matchIdx name cs) cmd
    cfg r hcfg hhelp hparse]
  simp [RunResult.after]

/-- What `execute` does for a handler that returns a usage error. -/
theorem execute_usage (usage : Option UsageFn) (cfg : config) (idx : Nat) (cmd : command)
    (rest : List String) (msg : String) (h : cmd.handler cfg rest = some (.usage msg)) :
    execute usage cfg idx cmd rest =
      ⟨[.handler idx rest (some (.usage msg)), .logf "error: %s\n\n" [msg],
        .setOutput (.cmd idx) .stderr, .setOutput .commandLine .stderr,
        .usage (.cmd idx) usage], .exit 2⟩ := by
  unfold execute
  rw [h]

/-- What `execute` does for a handler that returns an error with an exit code. -/
theorem execute_exitCode (usage : Option UsageFn) (cfg : config) (idx : Nat) (cmd : command)
    (rest : List String) (x : ExitCodeError) (h : cmd.handler cfg rest = some (.exitCode x)) :
    (execute usage cfg idx cmd rest).term = .exit x.Code ∧
      ∀ fs fn, Event.usage fs fn ∉ (execute usage cfg idx cmd rest).events := by
  unfold execute
  rw [h]
  simp only
  split <;> simp

/-- What `execute` does for a handler that returns any other error. -/
theorem execute_other (usage : Option UsageFn) (cfg : config) (idx : Nat) (cmd : command)
    (rest : List String) (msg : String) (h : cmd.handler cfg rest = some (.other msg)) :
    (execute usage cfg idx cmd rest).term = .exit 1 ∧
      ∀ fs fn, Event.usage fs fn ∉ (execute usage cfg idx cmd rest).events := by
  unfold execute
  rw [h]
  simp

/-- The value `firstMatch` gives, by the command at the index of the first match. -/
theorem firstMatch_eq_some_iff (name : String) (cs : commander) (i : Nat) :
    firstMatch name cs = some i ↔ i = matchIdx name cs ∧ i < cs.length := by
  unfold firstMatch
  split
  · rename_i hlt
    constructor
    · intro h
      simp only [Option.some.injEq] at h
      exact ⟨h.symm, h ▸ hlt⟩
    · rintro ⟨h, _⟩
      rw [h]
  · rename_i hge
    constructor
    · intro h
      exact absurd h (by simp)
    · rintro ⟨h, hl⟩
      exact absurd (h ▸ hl) hge

/-- The run of `run` on an input that passes the gates of lines 56-104, stated
on the inputs alone: the first positional argument is not "help", the command
at `idx` is the first that matches it, the configuration is read, `--help` is
not among the arguments and the subcommand flags parse. -/
theorem run_eq_of_gates (cs : commander) (w : World) (flagSet : FlagSet)
    (cmdName usageText : String) (args : List String) (name : String) (rest : List String)
    (idx : Nat) (cmd : command) (cfg : config) (r : List String)
    (hpos : posArgsOf flagSet args = some (name :: rest)) (hname : name ≠ "help")
    (hfirst : firstMatch name cs = some idx) (hcmd : cs[idx]? = some cmd)
    (hcfg : readConfig w = .ok cfg)
    (hhelp : args.any (fun s => decide (s = "--help")) = false)
    (hparse : cmd.flagSet.parse rest = .ok r) :
    cs.run w flagSet cmdName usageText args =
      (execute (configureUsage cmdName cs (fun _ => none) cmd.flagSetAddr) cfg idx cmd
        rest).after (parseEvents flagSet usageText args ++ [.readConfig]) := by
  obtain ⟨hidx, _⟩ := (firstMatch_eq_some_iff name cs idx).mp hfirst
  subst hidx
  exact run_eq_execute cs w flagSet cmdName usageText args name rest cmd cfg r
    hpos hname hcmd hcfg hhelp hparse

/-- C1 as amended: when the first positional argument is not "help", the
command at `idx` is the first that matches it, the configuration is read,
`--help` is not among the arguments, the subcommand flags parse and the handler
of that command returns the non-nil error `err`, then `run` calls `os.Exit` with
2 for a usage error, with exactly the code carried for an exit-code error, and
with 1 for any other error. The exit status of the process is 2, the code
carried modulo 256 (the code itself when it lies in 0..255), and 1; 2 is not
zero and differs from 1. -/
theorem C1_exit_status_of_handler_error (cs : commander) (w : World) (flagSet : FlagSet)
    (cmdName usageText : String) (args : List String) (name : String) (rest : List String)
    (idx : Nat) (cmd : command) (cfg : config) (r : List String) (err : GoError)
    (hpos : posArgsOf flagSet args = some (name :: rest)) (hname : name ≠ "help")
    (hfirst : firstMatch name cs = some idx) (hcmd : cs[idx]? = some cmd)
    (hcfg : readConfig w = .ok cfg)
    (hhelp : args.any (fun s => decide (s = "--help")) = false)
    (hparse : cmd.flagSet.parse rest = .ok r)
    (herr : cmd.handler cfg rest = some err) :
    (∀ msg, err = .usage msg →
        (cs.run w flagSet cmdName usageText args).term = .exit 2 ∧
        (cs.run w flagSet cmdName usageText args).term.status = 2) ∧
      (∀ e : ExitCodeError, err = .exitCode e →
        (cs.run w flagSet cmdName usageText args).term = .exit e.Code ∧
        (cs.run w flagSet cmdName usageText args).term.status = e.Code % 256 ∧
        (0 ≤ e.Code → e.Code ≤ 255 →
          (cs.run w flagSet cmdName usageText args).term.status = e.Code)) ∧
      (∀ msg, err = .other msg →
        (cs.run w flagSet cmdName usageText args).term = .exit 1 ∧
        (cs.run w flagSet cmdName usageText args).term.status = 1) ∧
      (2 : Int) ≠ 0 ∧ (2 : Int) ≠ 1 := by
  have heq := run_eq_of_gates cs w flagSet cmdName usageText args name rest idx cmd cfg r
    hpos hname hfirst hcmd hcfg hhelp hparse
  refine ⟨?_, ?_, ?_, by decide, by decide⟩
  · intro msg hmsg
    subst hmsg
    have ht : (cs.run w flagSet cmdName usageText args).term = .exit 2 := by
      rw [heq, execute_usage _ cfg idx cmd rest msg herr]
      rfl
    exact ⟨ht, by rw [ht]; rfl⟩
  · intro x hx
    subst hx
    have ht : (cs.run w flagSet cmdName usageText args).term = .exit x.Code := by
      rw [heq]
      exact (execute_exitCode _ cfg idx cmd rest x herr).1
    refine ⟨ht, by rw [ht]; rfl, ?_⟩
    intro h0 h255
    rw [ht]
    show x.Code % 256 = x.Code
    exact Int.emod_eq_of_lt h0 (by omega)
  · intro msg hmsg
    subst hmsg
    have ht : (cs.run w flagSet cmdName usageText args).term = .exit 1 := by
      rw [heq]
      exact (execute_other _ cfg idx cmd rest msg herr).1
    exact ⟨ht, by rw [ht]; rfl⟩

/-- C1 at concrete inputs, one for each kind of error the handler of `api`
returns: a usage error gives status 2, an exit-code error carrying 3 gives
status 3, and any other error gives status 1. -/
theorem C1_exit_status_of_handler_error_witness :
    (sampleRun (some (.usage "bad flag")) okWorld ["api", "x"]).term.status = 2 ∧
      (sampleRun (some (.exitCode ⟨some "boom", 3⟩)) okWorld ["api", "x"]).term.status = 3 ∧
      (sampleRun (some (.other "oops")) okWorld ["api", "x"]).term.status = 1 :=
  ⟨((C1_exit_status_of_handler_error (sampleCommands (some (.usage "bad flag"))) okWorld
      (plainFlagSet "src") "src" "usage of src" ["api", "x"] "api" ["x"] 0
      ⟨plainFlagSet "api", 1, [], fun _ _ => some (.usage "bad flag"), none⟩
      ⟨"https://sourcegraph.com", "abc"⟩ ["x"] (.usage "bad flag")
      (by decide) (by decide) (by decide) rfl (by decide) (by decide) rfl rfl).1
      "bad flag" rfl).2,
    ((C1_exit_status_of_handler_error (sampleCommands (some (.exitCode ⟨some "boom", 3⟩)))
      okWorld (plainFlagSet "src") "src" "usage of src" ["api", "x"] "api" ["x"] 0
      ⟨plainFlagSet "api", 1, [], fun _ _ => some (.exitCode ⟨some "boom", 3⟩), none⟩
      ⟨"https://sourcegraph.com", "abc"⟩ ["x"] (.exitCode ⟨some "boom", 3⟩)
      (by decide) (by decide) (by decide) rfl (by decide) (by decide) rfl rfl).2.1
      ⟨some "boom", 3⟩ rfl).2.2 (by decide) (by decide),
    ((C1_exit_status_of_handler_error (sampleCommands (some (.other "oops"))) okWorld
      (plainFlagSet "src") "src" "usage of src" ["api", "x"] "api" ["x"] 0
      ⟨plainFlagSet "api", 1, [], fun _ _ => some (.other "oops"), none⟩
      ⟨"https://sourcegraph.com", "abc"⟩ ["x"] (.other "oops")
      (by decide) (by decide) (by decide) rfl (by decide) (by decide) rfl rfl).2.2.1
      "oops" rfl).2⟩

/-- C1 as stated fails: the handler of the matched command `api` returns an
exit-code error carrying 256; `run` calls `os.Exit(256)` and the exit status of
the process is 0, not 256. -/
theorem C1_counterexample_code_256 :
    firstMatch "api" (sampleCommands (some (.exitCode ⟨none, 256⟩))) = some 0 ∧
      (sampleRun (some (.exitCode ⟨none, 256⟩)) okWorld ["api", "x"]).events =
        [.readConfig, .handler 0 ["x"] (some (.exitCode ⟨none, 256⟩))] ∧
      ExitCodeError.Code ⟨none, 256⟩ = 256 ∧
      (sampleRun (some (.exitCode ⟨none, 256⟩)) okWorld ["api", "x"]).term = .exit 256 ∧
      (sampleRun (some (.exitCode ⟨none, 256⟩)) okWorld ["api", "x"]).term.status = 0 ∧
      (sampleRun (some (.exitCode ⟨none, 256⟩)) okWorld ["api", "x"]).term.status ≠
        ExitCodeError.Code ⟨none, 256⟩ := by
  decide

/-- C2 as amended: when the first positional argument is not "help", the
command at `idx` is the first that matches it, the configuration is read,
`--help` is not among the arguments, the subcommand flags parse and the handler
of that command returns the non-nil error `err`, then: for a usage error the
run is the handler call, the error line, the two output switches and, last
before `os.Exit(2)`, the call of the function in the command's `flagSet.Usage`,
which is the `usageFunc` (the default printer when nil) of the last command
that shares the flag set, and of the command itself when no later command
shares it; for any other error no usage function of a command is called. -/
theorem C2_usage_called_iff_usage_error (cs : commander) (w : World) (flagSet : FlagSet)
    (cmdName usageText : String) (args : List String) (name : String) (rest : List String)
    (idx : Nat) (cmd : command) (cfg : config) (r : List String) (err : GoError)
    (hpos : posArgsOf flagSet args = some (name :: rest)) (hname : name ≠ "help")
    (hfirst : firstMatch name cs = some idx) (hcmd : cs[idx]? = some cmd)
    (hcfg : readConfig w = .ok cfg)
    (hhelp : args.any (fun s => decide (s = "--help")) = false)
    (hparse : cmd.flagSet.parse rest = .ok r)
    (herr : cmd.handler cfg rest = some err) :
    (∀ msg, err = .usage msg →
      ∃ owner : command,
        ((∀ (k : Nat) (other : command), idx < k → cs[k]? = some other →
          other.flagSetAddr ≠ cmd.flagSetAddr) → owner = cmd) ∧
        (∃ j : Nat, cs[j]? = some owner ∧ owner.flagSetAddr = cmd.flagSetAddr ∧
          ∀ (k : Nat) (other : command), j < k → cs[k]? = some other →
            other.flagSetAddr ≠ cmd.flagSetAddr) ∧
        (cs.run w flagSet cmdName usageText args).events =
          parseEvents flagSet usageText args ++
            [.readConfig, .handler idx rest (some (.usage msg)),
              .logf "error: %s\n\n" [msg],
              .setOutput (.cmd idx) .stderr, .setOutput .commandLine .stderr,
              .usage (.cmd idx)
                (some (match owner.usageFunc with
                  | some f => UsageFn.custom f
                  | none => UsageFn.default cmdName owner.flagSet.name))] ∧
        (cs.run w flagSet cmdName usageText args).term = .exit 2) ∧
    ((∀ msg, err ≠ .usage msg) →
      ∀ j fn, Event.usage (.cmd j) fn ∉
        (cs.run w flagSet cmdName usageText args).events) := by
  have heq := run_eq_of_gates cs w flagSet cmdName usageText args name rest idx cmd cfg r
    hpos hname hfirst hcmd hcfg hhelp hparse
  constructor
  · intro msg hmsg
    subst hmsg
    obtain ⟨owner, hown⟩ := usageOwner_isSome cs idx cmd hcmd
    refine ⟨owner, ?_, usageOwner_spec _ _ _ hown, ?_, ?_⟩
    · intro hlater
      have := usageOwner_of_unshared cs idx cmd hcmd hlater
      rw [hown] at this
      exact Option.some.inj this
    · rw [heq, execute_usage _ cfg idx cmd rest msg herr, configureUsage_eq, hown]
      simp [RunResult.after, usageFuncOf]
    · rw [heq, execute_usage _ cfg idx cmd rest msg herr]
      rfl
  · intro hne j fn hmem
    rw [heq] at hmem
    simp only [RunResult.after, List.mem_append, List.mem_singleton] at hmem
    rcases hmem with (hmem | hmem) | hmem
    · have := parseEvents_not_handler flagSet usageText args _ hmem
      simp at this
    · simp at hmem
    · cases err with
      | usage msg => exact hne msg rfl
      | exitCode x => exact (execute_exitCode _ cfg idx cmd rest x herr).2 _ _ hmem
      | other msg => exact (execute_other _ cfg idx cmd rest msg herr).2 _ _ hmem

/-- C2 at concrete inputs: `repos`, reached by its alias, has a usage function
of its own, which is the last call when its handler returns a usage error;
`api` has none, and the default printer is the last call; and when the handler
of `api` returns another error no usage function of a command is called. -/
theorem C2_usage_called_iff_usage_error_witness :
    ((twoCommands none (some (.usage "bad flag"))).run okWorld (plainFlagSet "src") "src"
        "usage of src" ["repo", "x"]).events =
        [.readConfig, .handler 1 ["x"] (some (.usage "bad flag")),
          .logf "error: %s\n\n" ["bad flag"],
          .setOutput (.cmd 1) .stderr, .setOutput .commandLine .stderr,
          .usage (.cmd 1) (some (.custom "reposUsage"))] ∧
      ((twoCommands (some (.usage "bad flag")) none).run okWorld (plainFlagSet "src") "src"
        "usage of src" ["api", "x"]).events =
        [.readConfig, .handler 0 ["x"] (some (.usage "bad flag")),
          .logf "error: %s\n\n" ["bad flag"],
          .setOutput (.cmd 0) .stderr, .setOutput .commandLine .stderr,
          .usage (.cmd 0) (some (.default "src" "api"))] ∧
      (∀ j fn, Event.usage (.cmd j) fn ∉
        ((twoCommands (some (.other "oops")) none).run okWorld (plainFlagSet "src") "src"
          "usage of src" ["api", "x"]).events) := by
  refine ⟨?_, ?_, ?_⟩
  · obtain ⟨owner, hown, _, hev, _⟩ :=
      (C2_usage_called_iff_usage_error (twoCommands none (some (.usage "bad flag"))) okWorld
        (plainFlagSet "src") "src" "usage of src" ["repo", "x"] "repo" ["x"] 1
        ⟨plainFlagSet "repos", 2, ["repo"], fun _ _ => some (.usage "bad flag"),
          some "reposUsage"⟩
        ⟨"https://sourcegraph.com", "abc"⟩ ["x"] (.usage "bad flag")
        (by decide) (by decide) (by decide) rfl (by decide) (by decide) rfl rfl).1
        "bad flag" rfl
    have hoc := hown (by
      intro k other hk hother
      rw [List.getElem?_eq_none (by simpa [twoCommands] using hk)] at hother
      exact absurd hother (by simp))
    subst hoc
    exact hev
  · obtain ⟨owner, hown, _, hev, _⟩ :=
      (C2_usage_called_iff_usage_error (twoCommands (some (.usage "bad flag")) none) okWorld
        (plainFlagSet "src") "src" "usage of src" ["api", "x"] "api" ["x"] 0
        ⟨plainFlagSet "api", 1, [], fun _ _ => some (.usage "bad flag"), none⟩
        ⟨"https://sourcegraph.com", "abc"⟩ ["x"] (.usage "bad flag")
        (by decide) (by decide) (by decide) rfl (by decide) (by decide) rfl rfl).1
        "bad flag" rfl
    have hoc := hown (by
      intro k other hk hother
      cases k with
      | zero => omega
      | succ k =>
        cases k with
        | zero =>
          simp only [twoCommands, List.getElem?_cons_succ, List.getElem?_cons_zero,
            Option.some.injEq] at hother
          subst hother
          decide
        | succ k =>
          rw [List.getElem?_eq_none (by simp [twoCommands])] at hother
          exact absurd hother (by simp))
    subst hoc
    exact hev
  · exact (C2_usage_called_iff_usage_error (twoCommands (some (.other "oops")) none) okWorld
      (plainFlagSet "src") "src" "usage of src" ["api", "x"] "api" ["x"] 0
      ⟨plainFlagSet "api", 1, [], fun _ _ => some (.other "oops"), none⟩
      ⟨"https://sourcegraph.com", "abc"⟩ ["x"] (.other "oops")
      (by decide) (by decide) (by decide) rfl (by decide) (by decide) rfl rfl).2
      (by intro msg h; exact absurd h (by simp))

/-- C2 as stated fails: two commands share the flag set `repos`; the first has
no usage function of its own and is the one that matches `repos`; its handler
returns a usage error, and the function `run` then calls is `repoUsage`, the
usage function of the second command, not the default printer of the first. -/
theorem C2_counterexample_shared_flag_set :
    firstMatch "repos" (sharedCommands (some (.usage "bad flag"))) = some 0 ∧
      ((sharedCommands (some (.usage "bad flag")))[0]?.map (fun cmd => cmd.usageFunc)) =
        some none ∧
      ((sharedCommands (some (.usage "bad flag")))[0]?.map
        (fun cmd => cmd.handler ⟨"https://sourcegraph.com", "abc"⟩ [])) =
        some (some (.usage "bad flag")) ∧
      ((sharedCommands (some (.usage "bad flag"))).run okWorld (plainFlagSet "src") "src"
        "usage of src" ["repos"]).events =
        [.readConfig, .handler 0 [] (some (.usage "bad flag")),
          .logf "error: %s\n\n" ["bad flag"],
          .setOutput (.cmd 0) .stderr, .setOutput .commandLine .stderr,
          .usage (.cmd 0) (some (.custom "repoUsage"))] ∧
      Event.usage (.cmd 0) (some (.default "src" "repos")) ∉
        ((sharedCommands (some (.usage "bad flag"))).run okWorld (plainFlagSet "src") "src"
          "usage of src" ["repos"]).events := by
  decide

/-- C9 as stated fails: the interface `ExecUI` has a method that returns a
value to its caller. -/
theorem C9_counterexample_method_returns :
    ¬ (∀ m ∈ ExecUI, m.returnsValue = false) := by
  decide

/-- C9 as amended: the methods of `ExecUI` that return a value are exactly
`ExecutingTasks`, which returns an `executor.TaskExecutionUI`, and
`CreatingBatchSpecError`, which returns an `error`; the other 29 of its 31
methods return nothing. -/
theorem C9_methods_returning_values :
    ExecUI.filter MethodSig.returnsValue =
        [⟨"ExecutingTasks", ["bool", "int"], ["executor.TaskExecutionUI"]⟩,
          ⟨"CreatingBatchSpecError", ["error"], ["error"]⟩] ∧
      (ExecUI.filter (fun m => !m.returnsValue)).length = 29 ∧
      ExecUI.length = 31 := by
  decide

end SrcCli
